import Mathlib

set_option maxHeartbeats 1000000

/-
Verification development for the NewiMusicBot Now-Playing/session core.
Each definition is a shallow embedding of one function of the JavaScript
source; the source file and line range are named in its doc comment.
External transport and audio-engine calls are modelled as explicit effects;
their outcomes, where they matter, are supplied by oracle functions.
-/

/-- Discord API errors distinguished by the safe transport wrapper
(src/utils/safeDiscord.js): code 10008 (unknown message), HTTP status 429
carrying a retry_after delay in seconds, and any other error code. -/
inductive DiscordError where
  | notFound : DiscordError
  | rateLimited (retryAfter : Nat) : DiscordError
  | other (code : Nat) : DiscordError
  deriving DecidableEq, Repr

/-- Serialized embed JSON, abstracted to the data that determines it
(src/utils/nowPlayingEmbed.js, generateNowPlayingEmbed lines 76-128 and
generateStoppedEmbed lines 135-141): the current track, the displayed
position, the upcoming queue, and the Paused/Playing status caption. -/
inductive EmbedData where
  | nowPlayingE (track : Nat) (position : Nat) (upcoming : List Nat)
      (paused : Bool) (playing : Bool) : EmbedData
  | stoppedE : EmbedData
  deriving DecidableEq, Repr

/-- Kinds of component rows attached to the status message: the five-button
control row (createButtonRow) and the confirm/cancel row of the stop dialog. -/
inductive RowKind where
  | controls : RowKind
  | confirm : RowKind
  deriving DecidableEq, Repr

/-- A Discord message as the bot sees it: creation timestamp plus the current
content and embeds, the fields safeEdit compares against. -/
structure Msg where
  createdTimestamp : Nat
  content : String
  embeds : List EmbedData
  deriving DecidableEq, Repr

/-- An edit payload; a field that is none is absent (undefined) in the JS
payload object. -/
structure Payload where
  content : Option String := none
  embeds : Option (List EmbedData) := none
  components : Option (List RowKind) := none
  deriving DecidableEq, Repr

/-- The guard at src/utils/safeDiscord.js line 25:
payload.content or payload.embeds is present. -/
def Payload.hasData (p : Payload) : Bool :=
  p.content.isSome || p.embeds.isSome

/-- The sameContent test of safeEdit (src/utils/safeDiscord.js lines 26-31):
each present field must equal the message's current value; JSON.stringify
equality of the embed arrays is list equality of the serialized embeds. -/
def sameContent (p : Payload) (m : Msg) : Bool :=
  (p.content.isNone || p.content == some m.content) &&
  (p.embeds.isNone || p.embeds == some m.embeds)

/-- message.edit(payload): present fields are applied, absent fields keep
their current value. -/
def applyEdit (m : Msg) (p : Payload) : Msg :=
  { m with
    content := p.content.getD m.content,
    embeds := p.embeds.getD m.embeds }

/-- Observable outcome of one safeEdit/safeDelete call: the resolved value or
the propagated error, the local message object afterwards, how many transport
requests were issued, how many of them succeeded, and the milliseconds slept
between attempts. -/
structure SafeCall where
  result : Except DiscordError (Option Msg)
  finalMsg : Option Msg
  attempts : Nat
  succeeded : Nat
  sleptMs : Nat
  deriving Repr

deriving instance DecidableEq for Except

deriving instance DecidableEq for SafeCall

/-- safeEdit (src/utils/safeDiscord.js lines 21-47). The transport oracle
gives the outcome of the idx-th edit request (none is success). fuel counts
remaining retries: 1 while retried is false, 0 on the single retry, matching
the recursion safeEdit(message, payload, true, log). A notFound (10008)
rejection resolves with no value; a 429 with nonzero retry_after sleeps
retry_after seconds and repeats the call once; anything else is rethrown. -/
def safeEditAux (p : Payload) (transport : Nat → Option DiscordError) :
    Nat → Nat → Option Msg → SafeCall
  | _, _, none => ⟨.ok none, none, 0, 0, 0⟩
  | fuel, idx, some m =>
    if p.hasData && sameContent p m then
      ⟨.ok (some m), some m, 0, 0, 0⟩
    else
      match transport idx, fuel with
      | none, _ => ⟨.ok (some (applyEdit m p)), some (applyEdit m p), 1, 1, 0⟩
      | some .notFound, _ => ⟨.ok none, some m, 1, 0, 0⟩
      | some (.rateLimited r), fuel' + 1 =>
        if r ≠ 0 then
          let k := safeEditAux p transport fuel' (idx + 1) (some m)
          ⟨k.result, k.finalMsg, k.attempts + 1, k.succeeded, k.sleptMs + r * 1000⟩
        else ⟨.error (.rateLimited r), some m, 1, 0, 0⟩
      | some (.rateLimited r), 0 => ⟨.error (.rateLimited r), some m, 1, 0, 0⟩
      | some (.other c), _ => ⟨.error (.other c), some m, 1, 0, 0⟩

/-- Entry point of safeEdit with retried = false. -/
def safeEdit (message : Option Msg) (p : Payload)
    (transport : Nat → Option DiscordError) : SafeCall :=
  safeEditAux p transport 1 0 message

/-- safeDelete (src/utils/safeDiscord.js lines 53-66): same error policy as
safeEdit, no content comparison, resolves with no value. -/
def safeDeleteAux (transport : Nat → Option DiscordError) :
    Nat → Nat → Option Msg → SafeCall
  | _, _, none => ⟨.ok none, none, 0, 0, 0⟩
  | fuel, idx, some m =>
    match transport idx, fuel with
    | none, _ => ⟨.ok none, none, 1, 1, 0⟩
    | some .notFound, _ => ⟨.ok none, some m, 1, 0, 0⟩
    | some (.rateLimited r), fuel' + 1 =>
      if r ≠ 0 then
        let k := safeDeleteAux transport fuel' (idx + 1) (some m)
        ⟨k.result, k.finalMsg, k.attempts + 1, k.succeeded, k.sleptMs + r * 1000⟩
      else ⟨.error (.rateLimited r), some m, 1, 0, 0⟩
    | some (.rateLimited r), 0 => ⟨.error (.rateLimited r), some m, 1, 0, 0⟩
    | some (.other c), _ => ⟨.error (.other c), some m, 1, 0, 0⟩

/-- Entry point of safeDelete with retried = false. -/
def safeDelete (message : Option Msg)
    (transport : Nat → Option DiscordError) : SafeCall :=
  safeDeleteAux transport 1 0 message

/-- Track metadata used by the title formatter; an empty author models the
falsy (missing or empty) trackInfo.author. -/
structure TrackInfo where
  title : String
  author : String
  deriving DecidableEq, Repr

/-- Whether sub occurs contiguously inside l. -/
def includesChars (sub : List Char) : List Char → Bool
  | [] => sub.isEmpty
  | c :: rest => sub.isPrefixOf (c :: rest) || includesChars sub rest

/-- JavaScript String.prototype.includes, on code points. -/
def strIncludes (s sub : String) : Bool :=
  includesChars sub.toList s.toList

/-- JavaScript String.prototype.toLowerCase, on code points. -/
def strToLower (s : String) : String :=
  String.mk (s.toList.map Char.toLower)

/-- formatTrackTitle (src/utils/formatTrack.js lines 13-26): URL-requested
tracks keep their title; otherwise a truthy author is prepended unless the
lower-cased title already contains the lower-cased author. -/
def formatTrackTitle (trackInfo : TrackInfo) (isUrl : Bool) : String :=
  if isUrl then trackInfo.title
  else if trackInfo.author ≠ "" then
    if strIncludes (strToLower trackInfo.title) (strToLower trackInfo.author) then
      trackInfo.title
    else trackInfo.author ++ " - " ++ trackInfo.title
  else trackInfo.title

/-- The filled/empty bar glyph of the progress bar. -/
def filledGlyph : Char := '▬'

/-- The knob glyph of the progress bar. -/
def knobGlyph : Char := '🔘'

/-- Character sequence of the progress bar. none models the RangeError that
String.prototype.repeat would raise on a negative count, which is unreachable
for 0 ≤ current. -/
def progressBarChars (current total : Int) (barLength : Nat) :
    Option (List Char) :=
  if total ≤ 0 then some []
  else
    let progress : Int := min (Int.fdiv (current * barLength) total) barLength
    let remaining : Int := (barLength : Int) - progress
    if progress < 0 then none
    else some (List.replicate progress.toNat filledGlyph ++
               [knobGlyph] ++ List.replicate remaining.toNat filledGlyph)

/-- buildProgressBar (src/utils/nowPlayingEmbed.js lines 49-54):
progress = min(floor(current / total * barLength), barLength), then
progress filled glyphs, the knob, and barLength - progress empty glyphs;
total ≤ 0 short-circuits to the empty string. -/
def buildProgressBar (current total : Int) (barLength : Nat := 18) :
    Option String :=
  (progressBarChars current total barLength).map String.mk

/-- Number of occurrences of a character in a string. -/
def countChar (s : String) (c : Char) : Nat :=
  (s.toList.filter fun x => x == c).length

/-- Length of the run of filled glyphs at the front of the bar. -/
def filledCount (s : String) : Nat :=
  (s.toList.takeWhile fun x => x == filledGlyph).length

/-- Content of the module-level cache player._lastEmbedData:
embed?.toJSON() || an empty object when nothing rendered. -/
inductive NewData where
  | emptyObj : NewData
  | embedJson (e : EmbedData) : NewData
  deriving DecidableEq, Repr

/-- The per-guild session object (the lavalink-client player plus the ad-hoc
fields the bot stores on it). Tracks are abstract identifiers; timer and
collector handles are identifiers of the allocated handle. -/
structure Player where
  current : Option Nat := none
  tracks : List Nat := []
  previous : List Nat := []
  playing : Bool := false
  paused : Bool := false
  position : Nat := 0
  pausedPosition : Option Nat := none
  volume : Nat := 100
  pauseTimeout : Option Nat := none
  stopConfirmationTimeout : Option Nat := none
  nowPlayingCollector : Option Nat := none
  nowPlayingInterval : Option Nat := none
  nowPlayingMessage : Option Msg := none
  lastUIUpdate : Option Nat := none
  lastEmbedData : Option NewData := none
  deriving DecidableEq, Repr

/-- The position the embed displays (src/utils/nowPlayingEmbed.js lines
81-83): the paused snapshot while paused and defined, else the live one. -/
def displayPosition (p : Player) : Nat :=
  if p.paused then
    match p.pausedPosition with
    | some v => v
    | none => p.position
  else p.position

/-- generateNowPlayingEmbed (src/utils/nowPlayingEmbed.js lines 76-128),
abstracted to the determining data: null exactly when there is no current
track, otherwise the serialized embed. -/
def renderEmbed (p : Player) : Option EmbedData :=
  match p.current with
  | none => none
  | some t => some (.nowPlayingE t (displayPosition p) p.tracks p.paused p.playing)

/-- embed?.toJSON() || an empty object. -/
def newDataOf (p : Player) : NewData :=
  match renderEmbed p with
  | some e => NewData.embedJson e
  | none => NewData.emptyObj

/-- External calls a control/UI operation performs, in order. -/
inductive Effect where
  | engineStopPlaying : Effect
  | enginePause : Effect
  | engineResume : Effect
  | collectorStopped : Effect
  | intervalCleared : Effect
  | timeoutCleared (id : Nat) : Effect
  | engineSetVolume (v : Nat) : Effect
  | editMessage (p : Payload) : Effect
  | sendMessage : Effect
  | deleteMessage : Effect
  deriving DecidableEq, Repr

/-- global.config.defaultVolume || 50 (src/utils/playerControls.js line 94). -/
def defaultVolume (cfg : Option Nat) : Nat :=
  match cfg with
  | some v => if v = 0 then 50 else v
  | none => 50

/-- The stopped-state edit payload of performStop lines 97-105: the stopped
embed and an empty components array. -/
def stoppedPayload : Payload :=
  { embeds := some [EmbedData.stoppedE], components := some [] }

/-- performStop (src/utils/playerControls.js lines 63-108): stop playback at
the engine, clear current/queue/history and both flags, stop and discard
collector and interval, reset the volume, render the stopped payload onto the
existing message inside try/catch, then drop the handle. The paused-position
snapshot and the pause/stop-confirmation timer references are not touched. -/
def performStop (cfg : Option Nat) (p : Player) : Player × List Effect :=
  let eff0 : List Effect := [.engineStopPlaying]
  let p1 := { p with current := none, tracks := [], previous := [],
                     playing := false, paused := false }
  let s2 : Player × List Effect :=
    match p1.nowPlayingCollector with
    | some _ => ({ p1 with nowPlayingCollector := none }, eff0 ++ [.collectorStopped])
    | none => (p1, eff0)
  let s3 : Player × List Effect :=
    match s2.1.nowPlayingInterval with
    | some _ => ({ s2.1 with nowPlayingInterval := none }, s2.2 ++ [.intervalCleared])
    | none => s2
  let p4 := { s3.1 with volume := defaultVolume cfg }
  let eff4 := s3.2 ++ [.engineSetVolume (defaultVolume cfg)]
  match p4.nowPlayingMessage with
  | some _ => ({ p4 with nowPlayingMessage := none }, eff4 ++ [.editMessage stoppedPayload])
  | none => (p4, eff4)

/-- togglePlayPause (src/utils/playerControls.js lines 17-43). freshId is the
identifier of the setTimeout handle the pause branch allocates. The engine
resume/pause calls flip the paused flag; the resume branch first clears any
pending pause timer, then clears the paused-position snapshot; the pause
branch snapshots the position and arms the 20-minute auto-stop timer by plain
assignment of the stored reference. -/
def togglePlayPause (p : Player) (freshId : Nat) : Player × List Effect :=
  if p.paused then
    let s1 : Player × List Effect :=
      match p.pauseTimeout with
      | some i => ({ p with pauseTimeout := none }, [Effect.timeoutCleared i])
      | none => (p, [])
    ({ s1.1 with paused := false, pausedPosition := none }, s1.2 ++ [.engineResume])
  else
    ({ p with pausedPosition := some p.position, paused := true,
              pauseTimeout := some freshId }, [.enginePause])

/-- updateNowPlaying (src/utils/updateNowPlaying.js lines 13-40): the payload
handed to safeEdit, or none when there is no status message. While a stop
confirmation is pending only the embed is sent (components omitted); otherwise
the embed and the components are both sent. -/
def updateNowPlaying (p : Player) : Option Payload :=
  match p.nowPlayingMessage with
  | none => none
  | some _ =>
    let embed := match renderEmbed p with
                 | some e => e
                 | none => EmbedData.stoppedE
    if p.stopConfirmationTimeout.isSome then
      some { embeds := some [embed] }
    else
      some { embeds := some [embed],
             components := some (if p.current.isSome then [RowKind.controls] else []) }

/-- Regular and fast throttle windows of the optimized UI manager
(src/unnamed/part_006 lines 24-25). -/
def MIN_UI_UPDATE_INTERVAL : Nat := 2000

/-- Fast-update window (src/unnamed/part_006 line 25). -/
def FAST_UPDATE_INTERVAL : Nat := 500

/-- Message creation in ensureNowPlayingMessage lines 82-97: null when there
is no embed to show, else send embed plus controls and rebind the collector
(registerCollectorOptimized stops any previous collector first). -/
def ensureCreate (p : Player) (now : Nat) (freshCollector : Nat)
    (eff : List Effect) : Player × Option Msg × List Effect :=
  match renderEmbed p with
  | none => (p, none, eff)
  | some e =>
    let m : Msg := { createdTimestamp := now, content := "", embeds := [e] }
    let effC : List Effect :=
      match p.nowPlayingCollector with
      | some _ => [Effect.collectorStopped]
      | none => []
    ({ p with nowPlayingMessage := some m, nowPlayingCollector := some freshCollector },
     some m, eff ++ [Effect.sendMessage] ++ effC)

/-- ensureNowPlayingMessage (src/unnamed/part_006 lines 64-98): reuse the
stored message unless it is over an hour old, in which case it is deleted and
recreated; with no stored message, create one if something is playing. -/
def ensureNowPlayingMessage (p : Player) (now : Nat) (freshCollector : Nat) :
    Player × Option Msg × List Effect :=
  match p.nowPlayingMessage with
  | some m =>
    if now - m.createdTimestamp > 3600000 then
      ensureCreate { p with nowPlayingMessage := none } now freshCollector
        [Effect.deleteMessage]
    else (p, some m, [])
  | none => ensureCreate p now freshCollector []

/-- The throttle test at src/unnamed/part_006 lines 289-293: the stored
last-update timestamp exists and less than the minimum interval has elapsed,
and the refresh is not fast (the fast minInterval is irrelevant because
fastUpdate already negates the conjunction). -/
def throttleHit (p : Player) (now : Nat) (fast : Bool) : Bool :=
  !fast &&
    (match p.lastUIUpdate with
     | some last => decide (now - last < MIN_UI_UPDATE_INTERVAL)
     | none => false)

/-- Result of one sendOrUpdateNowPlayingUI call: the updated session, the
uiUpdateQueue membership for this guild, the returned message, and the
transport effects issued. -/
structure UIOutcome where
  player : Player
  queued : Bool
  message : Option Msg
  effects : List Effect
  deriving DecidableEq, Repr

/-- Number of edit calls in an effect trace. -/
def editCount (effs : List Effect) : Nat :=
  (effs.filter fun e => match e with
    | .editMessage _ => true
    | _ => false).length

/-- sendOrUpdateNowPlayingUI (src/unnamed/part_006 lines 278-370). queued
models membership of this guild in the module-level uiUpdateQueue. Throttled
non-fast calls schedule a trailing timer and return; otherwise the timestamp
is recorded, the message is ensured, the candidate embed JSON is diffed
against the cache unless the call is fast, and at most one safeEdit is
issued, after which the auto-refresh interval is cleared and re-armed while
something is playing, paused, or current. The safeEdit is modelled as
succeeding; its 10008 branch only affects handle invalidation. -/
def sendOrUpdateNowPlayingUI (p : Player) (_queued : Bool) (now : Nat)
    (fast : Bool) (freshCollector : Nat) : UIOutcome :=
  if throttleHit p now fast then
    { player := p, queued := true, message := p.nowPlayingMessage, effects := [] }
  else
    let p1 := { p with lastUIUpdate := some now }
    let r := ensureNowPlayingMessage p1 now freshCollector
    match r.2.1 with
    | none => { player := r.1, queued := false, message := none, effects := r.2.2 }
    | some m =>
      let newData := newDataOf r.1
      if !fast && r.1.lastEmbedData == some newData then
        { player := r.1, queued := false, message := some m, effects := r.2.2 }
      else
        let p3 := { r.1 with lastEmbedData := some newData }
        let payload : Payload :=
          { embeds := some (renderEmbed r.1).toList,
            components := some [RowKind.controls] }
        let m2 := applyEdit m payload
        let p4 := { p3 with nowPlayingMessage := some m2 }
        let effI : List Effect :=
          match p4.nowPlayingInterval with
          | some _ => [Effect.intervalCleared]
          | none => []
        let p5 := { p4 with nowPlayingInterval := none }
        let p6 := if p5.playing || p5.paused || p5.current.isSome
                  then { p5 with nowPlayingInterval := some 0 }
                  else p5
        { player := p6, queued := false, message := some m2,
          effects := r.2.2 ++ [Effect.editMessage payload] ++ effI }

/-- Whether a live, reusable message exists or can be created by
ensureNowPlayingMessage at this instant. -/
def freshMsg (p : Player) (now : Nat) : Option Msg :=
  match p.nowPlayingMessage with
  | some m => if now - m.createdTimestamp > 3600000 then none else some m
  | none => none

/-- Per-session external outcomes during the legacy cleanup loop
(src/utils/reconnectManager.js lines 57-88): whether performStop rejects,
whether the bot is in a voice channel and disconnecting rejects, and whether
the safeEdit of the stopped embed propagates an error. player.destroy() has a
.catch attached and never throws there. -/
structure LegacyOracle where
  stopThrows : Bool := false
  hasVoice : Bool := false
  voiceThrows : Bool := false
  editThrows : Bool := false
  deriving DecidableEq, Repr

/-- Whether the try block of _cleanupAllPlayers reaches its catch for this
session (steps 1-3 of lines 60-78 reject). -/
def legacyCleanupThrew (p : Player) (o : LegacyOracle) : Bool :=
  o.stopThrows || (o.hasVoice && o.voiceThrows) ||
    (p.nowPlayingMessage.isSome && o.editThrows)

/-- Map.delete on the live-session map. -/
def eraseKey (g : Nat) (m : List (Nat × Player)) : List (Nat × Player) :=
  m.filter fun kv => kv.1 != g

/-- Map.get on the live-session map. -/
def lookupKey (g : Nat) (m : List (Nat × Player)) : Option Player :=
  (m.find? fun kv => kv.1 == g).map fun kv => kv.2

/-- _cleanupAllPlayers (src/utils/reconnectManager.js lines 57-88, first
variant): one try/catch per session; the map delete at line 82 sits at the
end of the try block, so a session whose cleanup throws is logged but kept,
while iteration continues with the remaining sessions. -/
def cleanupAllPlayers (oracles : Nat → LegacyOracle)
    (snapshot : List (Nat × Player)) (m : List (Nat × Player)) :
    List (Nat × Player) :=
  match snapshot with
  | [] => m
  | (g, p) :: rest =>
    if legacyCleanupThrew p (oracles g) then
      cleanupAllPlayers oracles rest m
    else
      cleanupAllPlayers oracles rest (eraseKey g m)

/-- Per-session external outcomes during the emergency cleanup
(src/utils/reconnectManager.js lines 261-356): the UI edit, the three voice
disconnect methods and the destroy each sit in their own try/catch and only
log; the collector stop at line 291 is the one unguarded call that can escape
to the per-session catch. -/
structure EmergencyOracle where
  uiEditThrows : Bool := false
  collectorStopThrows : Bool := false
  lavalinkDisconnectThrows : Bool := false
  voiceDestroyThrows : Bool := false
  guildDisconnectThrows : Bool := false
  destroyThrows : Bool := false
  deriving DecidableEq, Repr

/-- Body of the per-session try block of _emergencyCleanupAllPlayers (lines
268-346): drop the message handle after the best-effort stopped edit, clear
interval and collector, reset queue and flags; returns the mutated player and
whether an exception escaped to the catch (true exactly when the unguarded
collector stop threw, aborting the remaining steps). -/
def emergencyCleanupPlayer (p : Player) (o : EmergencyOracle) : Player × Bool :=
  let p1 := match p.nowPlayingMessage with
            | some _ => { p with nowPlayingMessage := none }
            | none => p
  let p2 := { p1 with nowPlayingInterval := none }
  if p2.nowPlayingCollector.isSome && o.collectorStopThrows then
    (p2, true)
  else
    let p3 := { p2 with nowPlayingCollector := none }
    ({ p3 with current := none, tracks := [], previous := [],
               playing := false, paused := false }, false)

/-- _emergencyCleanupAllPlayers (src/utils/reconnectManager.js lines 261-356):
iterate a snapshot of the live map; on the normal path step 6 (line 344)
deletes the entry, and the per-session catch (line 351) force-deletes it as
well, so the entry is removed in both branches and iteration continues. -/
def emergencyCleanupAllPlayers (oracles : Nat → EmergencyOracle)
    (snapshot : List (Nat × Player)) (m : List (Nat × Player)) :
    List (Nat × Player) :=
  match snapshot with
  | [] => m
  | (g, p) :: rest =>
    match emergencyCleanupPlayer p (oracles g) with
    | (_, true) => emergencyCleanupAllPlayers oracles rest (eraseKey g m)
    | (_, false) => emergencyCleanupAllPlayers oracles rest (eraseKey g m)

/-- Kinds of long-running per-session timers tracked on the session. -/
inductive TimerKind where
  | refreshInterval : TimerKind
  | stopConfirmation : TimerKind
  | pauseAutoStop : TimerKind
  deriving DecidableEq, Repr

/-- Runtime state for the timer-lifecycle semantics: the session, the next
fresh setTimeout/setInterval handle, and the set of currently live timers. -/
structure RtState where
  player : Player
  nextId : Nat
  live : List (Nat × TimerKind)
  deriving DecidableEq, Repr

/-- clearTimeout/clearInterval on a concrete handle. -/
def removeTimer (i : Nat) (l : List (Nat × TimerKind)) : List (Nat × TimerKind) :=
  l.filter fun t => t.1 != i

/-- clearTimeout/clearInterval on a stored (possibly absent) reference. -/
def clearStored (o : Option Nat) (l : List (Nat × TimerKind)) :
    List (Nat × TimerKind) :=
  match o with
  | some i => removeTimer i l
  | none => l

/-- The events of the timer runtime: the button dispatch cases of
src/utils/nowPlayingManager.js (lines 100-181), a command-level performStop,
the guarded interval creation of sendOrUpdateNowPlayingUI (lines 239-248),
and the firing of each timer callback. -/
inductive UIEvent where
  | pressStop : UIEvent
  | pressConfirmStop : UIEvent
  | pressCancelStop : UIEvent
  | pressPlayPause : UIEvent
  | commandStop : UIEvent
  | uiRefreshTick : UIEvent
  | intervalFire (i : Nat) : UIEvent
  | pauseTimerFire (i : Nat) : UIEvent
  | confirmTimerFire (i : Nat) : UIEvent
  deriving DecidableEq, Repr

/-- performStop in the runtime: the clearInterval at playerControls.js line 90
kills the stored interval timer; the pause and stop-confirmation timers are
not touched. -/
def performStopRT (cfg : Option Nat) (s : RtState) : RtState :=
  { player := (performStop cfg s.player).1,
    nextId := s.nextId,
    live := clearStored s.player.nowPlayingInterval s.live }

/-- One step of the timer runtime. The stop case (nowPlayingManager.js lines
102-118) assigns a fresh confirmation timer over the stored reference without
a clearTimeout; the pause branch of togglePlayPause does the same for the
pause auto-stop timer; confirm/cancel clear the stored confirmation timer;
the interval creation is guarded by the check at line 239; interval callbacks
self-cancel once neither playing nor paused (lines 240-247); the one-shot
timeout callbacks remove themselves when they fire. -/
def stepTimer (cfg : Option Nat) (s : RtState) : UIEvent → RtState
  | .pressStop =>
    { player := { s.player with stopConfirmationTimeout := some s.nextId },
      nextId := s.nextId + 1,
      live := s.live ++ [(s.nextId, TimerKind.stopConfirmation)] }
  | .pressConfirmStop =>
    performStopRT cfg
      { s with live := clearStored s.player.stopConfirmationTimeout s.live }
  | .pressCancelStop =>
    { s with live := clearStored s.player.stopConfirmationTimeout s.live }
  | .pressPlayPause =>
    if s.player.paused then
      { player := { s.player with pauseTimeout := none, paused := false,
                                  pausedPosition := none },
        nextId := s.nextId,
        live := clearStored s.player.pauseTimeout s.live }
    else
      { player := { s.player with pausedPosition := some s.player.position,
                                  paused := true, pauseTimeout := some s.nextId },
        nextId := s.nextId + 1,
        live := s.live ++ [(s.nextId, TimerKind.pauseAutoStop)] }
  | .commandStop => performStopRT cfg s
  | .uiRefreshTick =>
    match s.player.nowPlayingInterval with
    | some _ => s
    | none =>
      { player := { s.player with nowPlayingInterval := some s.nextId },
        nextId := s.nextId + 1,
        live := s.live ++ [(s.nextId, TimerKind.refreshInterval)] }
  | .intervalFire i =>
    if s.live.contains (i, TimerKind.refreshInterval) then
      if s.player.playing || s.player.paused then s
      else
        { player := { s.player with nowPlayingInterval := none },
          nextId := s.nextId,
          live := clearStored s.player.nowPlayingInterval s.live }
    else s
  | .pauseTimerFire i =>
    if s.live.contains (i, TimerKind.pauseAutoStop) then
      let s1 := { s with live := removeTimer i s.live }
      if s1.player.paused then performStopRT cfg s1 else s1
    else s
  | .confirmTimerFire i =>
    if s.live.contains (i, TimerKind.stopConfirmation) then
      { s with live := removeTimer i s.live }
    else s

/-- Initial runtime state: a session that has not yet armed any timer. -/
def initialRt (p : Player) : RtState :=
  { player := { p with pauseTimeout := none, stopConfirmationTimeout := none,
                       nowPlayingInterval := none },
    nextId := 0, live := [] }

/-- Reachability of a runtime state from an initial session by the events. -/
inductive ReachedRt (cfg : Option Nat) (p0 : Player) : RtState → Prop where
  | init : ReachedRt cfg p0 (initialRt p0)
  | step (s : RtState) (e : UIEvent) :
      ReachedRt cfg p0 s → ReachedRt cfg p0 (stepTimer cfg s e)

/-- Runs an event list through the timer runtime. -/
def runEvents (cfg : Option Nat) (s : RtState) (es : List UIEvent) : RtState :=
  es.foldl (stepTimer cfg) s

/-- The live timers of a given kind. -/
def liveOfKind (k : TimerKind) (s : RtState) : List (Nat × TimerKind) :=
  s.live.filter fun t => t.2 == k

/-- Invariant of the timer runtime: live handles are below the allocation
counter, handles are pairwise distinct, and every live periodic-refresh
interval is the one referenced by the session. -/
def rtInv (s : RtState) : Prop :=
  (∀ e ∈ s.live, e.1 < s.nextId) ∧
  (s.live.map Prod.fst).Nodup ∧
  (∀ e ∈ s.live, e.2 = TimerKind.refreshInterval →
    s.player.nowPlayingInterval = some e.1)

/-- A concrete status message used to instantiate theorems. -/
def exampleMsg : Msg :=
  { createdTimestamp := 500, content := "",
    embeds := [EmbedData.nowPlayingE 7 100 [8, 9] false true] }

/-- A concrete playing session with a live message, a bound collector and a
running refresh interval, used to instantiate theorems. -/
def examplePlayer : Player :=
  { current := some 7, tracks := [8, 9], previous := [5], playing := true,
    paused := false, position := 100, volume := 80,
    nowPlayingCollector := some 3, nowPlayingInterval := some 4,
    nowPlayingMessage := some exampleMsg }

/-- The post-state performStop promises: everything cleared and dropped. -/
def stoppedState (p : Player) : Prop :=
  p.current = none ∧ p.tracks = [] ∧ p.previous = [] ∧
  p.playing = false ∧ p.paused = false ∧
  p.nowPlayingCollector = none ∧ p.nowPlayingInterval = none ∧
  p.nowPlayingMessage = none

/-- C9: formatTrackTitle prepends the author when missing from the title,
does not double-prefix when the title already contains the author
case-insensitively, and returns the raw title for URL-requested tracks. -/
theorem formatTrackTitle_roundtrip :
    formatTrackTitle ⟨"Song", "Artist"⟩ false = "Artist - Song" ∧
    formatTrackTitle ⟨"Artist - Song", "Artist"⟩ false = "Artist - Song" ∧
    ∀ (t : TrackInfo), formatTrackTitle t true = t.title := by
  refine ⟨by decide, by decide, fun t => rfl⟩

/-- Filtering a constant run for that constant keeps the whole run. -/
theorem filter_beq_replicate (n : Nat) (c : Char) :
    (List.replicate n c).filter (fun x => x == c) = List.replicate n c := by
  induction n with
  | zero => rfl
  | succ n ih => simp [List.replicate_succ, List.filter_cons, ih]

/-- takeWhile of a constant run stops exactly at the first other glyph. -/
theorem takeWhile_replicate_append (n : Nat) (c d : Char) (l : List Char)
    (h : (d == c) = false) :
    ((List.replicate n c ++ d :: l).takeWhile fun x => x == c) =
      List.replicate n c := by
  induction n with
  | zero => simp [List.takeWhile_cons, h]
  | succ n ih => simp [List.replicate_succ, List.takeWhile_cons, ih]

/-- C8: for 0 ≤ position ≤ total and total > 0 the bar has exactly barLength
filled-or-empty glyphs and the filled run is the clamped
floor(position / total * barLength); total ≤ 0 yields the empty string
without division. -/
theorem buildProgressBar_bounds :
    ∀ (current total : Int) (L : Nat),
      (0 ≤ current → current ≤ total → 0 < total →
        ∃ s, buildProgressBar current total L = some s ∧
          countChar s filledGlyph = L ∧
          filledCount s =
            (min (Int.fdiv (current * L) total) (L : Int)).toNat) ∧
      (total ≤ 0 → buildProgressBar current total L = some "") := by
  intro c t L
  constructor
  · intro h0 _h1 h2
    have hts : ¬ t ≤ 0 := not_le.mpr h2
    have hf0 : 0 ≤ Int.fdiv (c * L) t :=
      Int.fdiv_nonneg (mul_nonneg h0 (Int.natCast_nonneg L)) (le_of_lt h2)
    have hP0 : 0 ≤ min (Int.fdiv (c * (L : Int)) t) (L : Int) :=
      le_min hf0 (Int.natCast_nonneg L)
    have hPL : min (Int.fdiv (c * (L : Int)) t) (L : Int) ≤ (L : Int) :=
      min_le_right _ _
    have hnl : ¬ min (Int.fdiv (c * (L : Int)) t) (L : Int) < 0 :=
      not_lt.mpr hP0
    have hbp : buildProgressBar c t L = some (String.mk
        (List.replicate (min (Int.fdiv (c * (L : Int)) t) (L : Int)).toNat
            filledGlyph ++
          [knobGlyph] ++
          List.replicate
            ((L : Int) - min (Int.fdiv (c * (L : Int)) t) (L : Int)).toNat
            filledGlyph)) := by
      simp only [buildProgressBar, progressBarChars, if_neg hts, if_neg hnl]
      rfl
    refine ⟨_, hbp, ?_, ?_⟩
    · show (((List.replicate _ filledGlyph ++ [knobGlyph] ++
          List.replicate _ filledGlyph).filter fun x => x == filledGlyph)).length = L
      rw [List.filter_append, List.filter_append, filter_beq_replicate,
        filter_beq_replicate]
      have hk : ([knobGlyph].filter fun x => x == filledGlyph) = [] := by decide
      rw [hk]
      simp only [List.length_append, List.length_replicate, List.length_nil]
      omega
    · show ((List.replicate _ filledGlyph ++ [knobGlyph] ++
          List.replicate _ filledGlyph).takeWhile fun x => x == filledGlyph).length = _
      rw [List.append_assoc, List.singleton_append,
        takeWhile_replicate_append _ _ _ _ (by decide)]
      simp [List.length_replicate]
  · intro hle
    simp only [buildProgressBar, progressBarChars, if_pos hle, Option.map_some]
    rfl

/-- Witness for C8 at position 7 of 21 with an 18-cell bar, plus the
degenerate total. -/
theorem buildProgressBar_bounds_witness :
    (∃ s, buildProgressBar 7 21 18 = some s ∧
      countChar s filledGlyph = 18 ∧
      filledCount s = (min (Int.fdiv (7 * 18) 21) (18 : Int)).toNat) ∧
    buildProgressBar 5 0 18 = some "" :=
  ⟨(buildProgressBar_bounds 7 21 18).1 (by decide) (by decide) (by decide),
   (buildProgressBar_bounds 5 0 18).2 (by decide)⟩

/-- C3: safeEdit and safeDelete resolve on a missing handle and on the
transport's not-found error; a 429 with a retry delay sleeps that delay and
repeats the call exactly once, erroring only if the retry errs; every other
error propagates unchanged. -/
theorem safeTransport_error_policy :
    (∀ (p : Payload) (t : Nat → Option DiscordError),
        safeEdit none p t = ⟨.ok none, none, 0, 0, 0⟩ ∧
        safeDelete none t = ⟨.ok none, none, 0, 0, 0⟩) ∧
    (∀ (m : Msg) (p : Payload) (t : Nat → Option DiscordError),
        (p.hasData && sameContent p m) = false →
        (t 0 = some .notFound →
          safeEdit (some m) p t = ⟨.ok none, some m, 1, 0, 0⟩) ∧
        (∀ c, t 0 = some (.other c) →
          safeEdit (some m) p t = ⟨.error (.other c), some m, 1, 0, 0⟩) ∧
        (∀ r, t 0 = some (.rateLimited r) → r ≠ 0 →
          (safeEdit (some m) p t).sleptMs = r * 1000 ∧
          (safeEdit (some m) p t).attempts = 2 ∧
          (t 1 = none →
            (safeEdit (some m) p t).result = .ok (some (applyEdit m p))) ∧
          (t 1 = some .notFound →
            (safeEdit (some m) p t).result = .ok none) ∧
          (∀ e, t 1 = some e → e ≠ .notFound →
            (safeEdit (some m) p t).result = .error e))) ∧
    (∀ (m : Msg) (t : Nat → Option DiscordError),
        (t 0 = some .notFound →
          safeDelete (some m) t = ⟨.ok none, some m, 1, 0, 0⟩) ∧
        (∀ c, t 0 = some (.other c) →
          safeDelete (some m) t = ⟨.error (.other c), some m, 1, 0, 0⟩) ∧
        (∀ r, t 0 = some (.rateLimited r) → r ≠ 0 →
          (safeDelete (some m) t).sleptMs = r * 1000 ∧
          (safeDelete (some m) t).attempts = 2 ∧
          (t 1 = none → (safeDelete (some m) t).result = .ok none) ∧
          (t 1 = some .notFound → (safeDelete (some m) t).result = .ok none) ∧
          (∀ e, t 1 = some e → e ≠ .notFound →
            (safeDelete (some m) t).result = .error e))) := by
  refine ⟨fun p t => ⟨rfl, rfl⟩, ?_, ?_⟩
  · intro m p t hsup
    refine ⟨?_, ?_, ?_⟩
    · intro h0
      simp [safeEdit, safeEditAux, hsup, h0]
    · intro c h0
      simp [safeEdit, safeEditAux, hsup, h0]
    · intro r h0 hr
      refine ⟨?_, ?_, ?_, ?_, ?_⟩
      · cases ht1 : t 1 with
        | none => simp [safeEdit, safeEditAux, hsup, h0, hr, ht1]
        | some e =>
          cases e <;> simp [safeEdit, safeEditAux, hsup, h0, hr, ht1]
      · cases ht1 : t 1 with
        | none => simp [safeEdit, safeEditAux, hsup, h0, hr, ht1]
        | some e =>
          cases e <;> simp [safeEdit, safeEditAux, hsup, h0, hr, ht1]
      · intro ht1
        simp [safeEdit, safeEditAux, hsup, h0, hr, ht1]
      · intro ht1
        simp [safeEdit, safeEditAux, hsup, h0, hr, ht1]
      · intro e ht1 hne
        cases e with
        | notFound => exact absurd rfl hne
        | rateLimited r2 => simp [safeEdit, safeEditAux, hsup, h0, hr, ht1]
        | other c2 => simp [safeEdit, safeEditAux, hsup, h0, hr, ht1]
  · intro m t
    refine ⟨?_, ?_, ?_⟩
    · intro h0
      simp [safeDelete, safeDeleteAux, h0]
    · intro c h0
      simp [safeDelete, safeDeleteAux, h0]
    · intro r h0 hr
      refine ⟨?_, ?_, ?_, ?_, ?_⟩
      · cases ht1 : t 1 with
        | none => simp [safeDelete, safeDeleteAux, h0, hr, ht1]
        | some e =>
          cases e <;> simp [safeDelete, safeDeleteAux, h0, hr, ht1]
      · cases ht1 : t 1 with
        | none => simp [safeDelete, safeDeleteAux, h0, hr, ht1]
        | some e =>
          cases e <;> simp [safeDelete, safeDeleteAux, h0, hr, ht1]
      · intro ht1
        simp [safeDelete, safeDeleteAux, h0, hr, ht1]
      · intro ht1
        simp [safeDelete, safeDeleteAux, h0, hr, ht1]
      · intro e ht1 hne
        cases e with
        | notFound => exact absurd rfl hne
        | rateLimited r2 => simp [safeDelete, safeDeleteAux, h0, hr, ht1]
        | other c2 => simp [safeDelete, safeDeleteAux, h0, hr, ht1]

/-- Witness for C3: a null handle, a not-found edit, a rate-limited edit
that sleeps 2 seconds, and a propagated 500 on delete. -/
theorem safeTransport_error_policy_witness :
    safeEdit none stoppedPayload (fun _ => some DiscordError.notFound) =
      ⟨.ok none, none, 0, 0, 0⟩ ∧
    safeEdit (some exampleMsg) stoppedPayload
        (fun _ => some DiscordError.notFound) =
      ⟨.ok none, some exampleMsg, 1, 0, 0⟩ ∧
    (safeEdit (some exampleMsg) stoppedPayload
        (fun i => if i = 0 then some (DiscordError.rateLimited 2) else none)).sleptMs =
      2 * 1000 ∧
    safeDelete (some exampleMsg) (fun _ => some (DiscordError.other 500)) =
      ⟨.error (DiscordError.other 500), some exampleMsg, 1, 0, 0⟩ :=
  ⟨(safeTransport_error_policy.1 stoppedPayload _).1,
   (safeTransport_error_policy.2.1 exampleMsg stoppedPayload _ (by decide)).1 rfl,
   ((safeTransport_error_policy.2.1 exampleMsg stoppedPayload _
      (by decide)).2.2 2 rfl (by decide)).1,
   (safeTransport_error_policy.2.2 exampleMsg _).2.1 500 rfl⟩

/-- After an edit of a payload carrying data, the message matches it. -/
theorem sameContent_applyEdit (p : Payload) (m : Msg) (h : p.hasData = true) :
    sameContent p (applyEdit m p) = true := by
  rcases p with ⟨pc, pe, pk⟩
  cases pc <;> cases pe <;>
    simp_all [sameContent, applyEdit, Payload.hasData]

/-- A single safeEdit call performs at most one successful edit. -/
theorem safeEditAux_succeeded_le (p : Payload) (t : Nat → Option DiscordError) :
    ∀ fuel idx msg, (safeEditAux p t fuel idx msg).succeeded ≤ 1 := by
  intro fuel
  induction fuel with
  | zero =>
    intro idx msg
    cases msg with
    | none => simp [safeEditAux.eq_def]
    | some m =>
      by_cases hs : (Payload.hasData p && sameContent p m) = true
      · simp [safeEditAux.eq_def, hs]
      · cases ht : t idx with
        | none => simp [safeEditAux.eq_def, hs, ht]
        | some e => cases e <;> simp [safeEditAux.eq_def, hs, ht]
  | succ f ih =>
    intro idx msg
    cases msg with
    | none => simp [safeEditAux.eq_def]
    | some m =>
      by_cases hs : (Payload.hasData p && sameContent p m) = true
      · simp [safeEditAux.eq_def, hs]
      · cases ht : t idx with
        | none => simp [safeEditAux.eq_def, hs, ht]
        | some e =>
          cases e with
          | notFound => simp [safeEditAux.eq_def, hs, ht]
          | rateLimited r =>
            by_cases hr : r = 0
            · simp [safeEditAux.eq_def, hs, ht, hr]
            · rw [safeEditAux.eq_def]
              simpa [hs, ht, hr] using ih (idx + 1) (some m)
          | other c => simp [safeEditAux.eq_def, hs, ht]

/-- When a safeEdit call starting from a live message succeeds, the local
message ends up as the edited one. -/
theorem safeEditAux_succeeded_finalMsg (p : Payload)
    (t : Nat → Option DiscordError) :
    ∀ fuel idx m, (safeEditAux p t fuel idx (some m)).succeeded = 1 →
      (safeEditAux p t fuel idx (some m)).finalMsg = some (applyEdit m p) := by
  intro fuel
  induction fuel with
  | zero =>
    intro idx m
    by_cases hs : (Payload.hasData p && sameContent p m) = true
    · simp [safeEditAux.eq_def, hs]
    · cases ht : t idx with
      | none => simp [safeEditAux.eq_def, hs, ht]
      | some e => cases e <;> simp [safeEditAux.eq_def, hs, ht]
  | succ f ih =>
    intro idx m
    by_cases hs : (Payload.hasData p && sameContent p m) = true
    · simp [safeEditAux.eq_def, hs]
    · cases ht : t idx with
      | none => simp [safeEditAux.eq_def, hs, ht]
      | some e =>
        cases e with
        | notFound => simp [safeEditAux.eq_def, hs, ht]
        | rateLimited r =>
          by_cases hr : r = 0
          · simp [safeEditAux.eq_def, hs, ht, hr]
          · intro hsucc
            rw [safeEditAux.eq_def] at hsucc ⊢
            simp only [hs] at hsucc ⊢
            simp [ht, hr] at hsucc ⊢
            exact ih (idx + 1) m hsucc
        | other c => simp [safeEditAux.eq_def, hs, ht]

/-- C10: a payload carrying content or embeds that already matches the
message makes safeEdit return the message with no transport request at all,
and repeating the same safeEdit on the same message performs at most one
successful transport edit across both calls. -/
theorem safeEdit_diff_suppression :
    (∀ (m : Msg) (p : Payload) (t : Nat → Option DiscordError),
        p.hasData = true → sameContent p m = true →
        safeEdit (some m) p t = ⟨.ok (some m), some m, 0, 0, 0⟩) ∧
    (∀ (m : Msg) (p : Payload) (t1 t2 : Nat → Option DiscordError),
        p.hasData = true →
        (safeEdit (some m) p t1).succeeded +
          (safeEdit (safeEdit (some m) p t1).finalMsg p t2).succeeded ≤ 1) := by
  have hfirst : ∀ (m : Msg) (p : Payload) (t : Nat → Option DiscordError),
      p.hasData = true → sameContent p m = true →
      safeEdit (some m) p t = ⟨.ok (some m), some m, 0, 0, 0⟩ := by
    intro m p t h1 h2
    simp [safeEdit, safeEditAux.eq_def, h1, h2]
  refine ⟨hfirst, ?_⟩
  intro m p t1 t2 hd
  have hle1 : (safeEdit (some m) p t1).succeeded ≤ 1 :=
    safeEditAux_succeeded_le p t1 1 0 (some m)
  rcases hx : (safeEdit (some m) p t1).succeeded with _ | n
  · have hle2 : (safeEdit (safeEdit (some m) p t1).finalMsg p t2).succeeded ≤ 1 := by
      cases hfm : (safeEdit (some m) p t1).finalMsg with
      | none => simp [safeEdit, safeEditAux]
      | some m2 => exact safeEditAux_succeeded_le p t2 1 0 (some m2)
    omega
  · have h1 : (safeEdit (some m) p t1).succeeded = 1 := by omega
    have hfm : (safeEdit (some m) p t1).finalMsg = some (applyEdit m p) :=
      safeEditAux_succeeded_finalMsg p t1 1 0 m h1
    rw [hfm, hfirst (applyEdit m p) p t2 hd (sameContent_applyEdit p m hd)]
    show n + 1 + 0 ≤ 1
    omega

/-- Witness for C10: an identical stopped payload is suppressed with zero
requests, and two repeated edits of a differing payload succeed once. -/
theorem safeEdit_diff_suppression_witness :
    safeEdit (some exampleMsg)
        { embeds := some [EmbedData.nowPlayingE 7 100 [8, 9] false true] }
        (fun _ => none) =
      ⟨.ok (some exampleMsg), some exampleMsg, 0, 0, 0⟩ ∧
    (safeEdit (some exampleMsg) stoppedPayload (fun _ => none)).succeeded +
      (safeEdit (safeEdit (some exampleMsg) stoppedPayload (fun _ => none)).finalMsg
        stoppedPayload (fun _ => none)).succeeded ≤ 1 :=
  ⟨safeEdit_diff_suppression.1 exampleMsg _ _ (by decide) (by decide),
   safeEdit_diff_suppression.2 exampleMsg stoppedPayload _ _ (by decide)⟩

/-- C4: performStop is idempotent and total: after each of two successive
calls the track, queue and history are empty, the flags are down, collector
and interval are discarded, the volume is the configured default, the stopped
payload is rendered onto the existing message, which is dropped but never
deleted. -/
theorem performStop_idempotent :
    ∀ (cfg : Option Nat) (p : Player),
      stoppedState (performStop cfg p).1 ∧
      (performStop cfg p).1.volume = defaultVolume cfg ∧
      stoppedState (performStop cfg (performStop cfg p).1).1 ∧
      (performStop cfg (performStop cfg p).1).1.volume = defaultVolume cfg ∧
      (p.nowPlayingMessage.isSome = true →
        Effect.editMessage stoppedPayload ∈ (performStop cfg p).2) ∧
      Effect.deleteMessage ∉ (performStop cfg p).2 ∧
      Effect.deleteMessage ∉ (performStop cfg (performStop cfg p).1).2 ∧
      (performStop cfg p).1.nowPlayingMessage = none := by
  intro cfg p
  cases hc : p.nowPlayingCollector <;> cases hi : p.nowPlayingInterval <;>
    cases hm : p.nowPlayingMessage <;>
      simp [performStop, stoppedState, hc, hi, hm]

/-- Witness for C4 at a playing session with collector, interval and
message. -/
theorem performStop_idempotent_witness :
    stoppedState (performStop (some 50) examplePlayer).1 ∧
    Effect.editMessage stoppedPayload ∈ (performStop (some 50) examplePlayer).2 :=
  ⟨(performStop_idempotent (some 50) examplePlayer).1,
   (performStop_idempotent (some 50) examplePlayer).2.2.2.2.1 (by decide)⟩

/-- C5 counterexample: pausing (which snapshots position 100) and then
stopping leaves the paused flag false with the paused-position snapshot still
defined, so stop does not clear the snapshot as the claim states. -/
theorem pausedPosition_after_stop_counterexample :
    (performStop (some 50) (togglePlayPause examplePlayer 10).1).1.paused = false ∧
    (performStop (some 50) (togglePlayPause examplePlayer 10).1).1.pausedPosition =
      some 100 := by decide

/-- C5 amended: togglePlayPause sets the snapshot when pausing and clears it
when resuming, while performStop clears the paused flag but leaves the
snapshot untouched. -/
theorem pausedPosition_lifecycle :
    ∀ (p : Player) (freshId : Nat) (cfg : Option Nat),
      (p.paused = true →
        (togglePlayPause p freshId).1.pausedPosition = none ∧
        (togglePlayPause p freshId).1.paused = false) ∧
      (p.paused = false →
        (togglePlayPause p freshId).1.pausedPosition = some p.position ∧
        (togglePlayPause p freshId).1.paused = true) ∧
      (performStop cfg p).1.pausedPosition = p.pausedPosition ∧
      (performStop cfg p).1.paused = false := by
  intro p f cfg
  refine ⟨?_, ?_, ?_, ?_⟩
  · intro h
    cases hp : p.pauseTimeout <;> simp [togglePlayPause, h, hp]
  · intro h
    simp [togglePlayPause, h]
  · cases hc : p.nowPlayingCollector <;> cases hi : p.nowPlayingInterval <;>
      cases hm : p.nowPlayingMessage <;> simp [performStop, hc, hi, hm]
  · cases hc : p.nowPlayingCollector <;> cases hi : p.nowPlayingInterval <;>
      cases hm : p.nowPlayingMessage <;> simp [performStop, hc, hi, hm]

/-- Witness for C5: resuming clears the snapshot; pausing sets it. -/
theorem pausedPosition_lifecycle_witness :
    (togglePlayPause (togglePlayPause examplePlayer 10).1 11).1.pausedPosition =
      none ∧
    (togglePlayPause examplePlayer 10).1.pausedPosition = some 100 :=
  ⟨((pausedPosition_lifecycle (togglePlayPause examplePlayer 10).1 11 none).1
      (by decide)).1,
   ((pausedPosition_lifecycle examplePlayer 10 none).2.1 (by decide)).1⟩

/-- C6: while a stop confirmation is pending, the refresh payload carries
only embeds (components omitted, so the confirm/cancel row survives); with no
confirmation pending it carries embeds and components; with no message there
is no edit. -/
theorem updateNowPlaying_confirmation_payload :
    ∀ (p : Player),
      (p.nowPlayingMessage.isSome = true →
        p.stopConfirmationTimeout.isSome = true →
        ∃ es, updateNowPlaying p =
          some { content := none, embeds := some es, components := none }) ∧
      (p.nowPlayingMessage.isSome = true →
        p.stopConfirmationTimeout.isSome = false →
        ∃ es cs, updateNowPlaying p =
          some { content := none, embeds := some es, components := some cs }) ∧
      (p.nowPlayingMessage = none → updateNowPlaying p = none) := by
  intro p
  refine ⟨?_, ?_, ?_⟩
  · intro hm hst
    cases hmsg : p.nowPlayingMessage with
    | none => simp [hmsg] at hm
    | some m =>
      cases hcur : p.current with
      | none =>
        exact ⟨[EmbedData.stoppedE],
          by simp [updateNowPlaying, hmsg, hst, renderEmbed, hcur]⟩
      | some tr =>
        exact ⟨[EmbedData.nowPlayingE tr (displayPosition p) p.tracks p.paused
            p.playing],
          by simp [updateNowPlaying, hmsg, hst, renderEmbed, hcur]⟩
  · intro hm hst
    cases hmsg : p.nowPlayingMessage with
    | none => simp [hmsg] at hm
    | some m =>
      cases hstc : p.stopConfirmationTimeout with
      | some tid => simp [hstc] at hst
      | none =>
        cases hcur : p.current with
        | none =>
          exact ⟨[EmbedData.stoppedE], [],
            by simp [updateNowPlaying, hmsg, hstc, renderEmbed, hcur]⟩
        | some tr =>
          exact ⟨[EmbedData.nowPlayingE tr (displayPosition p) p.tracks p.paused
              p.playing], [RowKind.controls],
            by simp [updateNowPlaying, hmsg, hstc, renderEmbed, hcur]⟩
  · intro hm
    simp [updateNowPlaying, hm]

/-- Witness for C6 at a pending and a non-pending session. -/
theorem updateNowPlaying_confirmation_payload_witness :
    (∃ es, updateNowPlaying
        { examplePlayer with stopConfirmationTimeout := some 5 } =
      some { content := none, embeds := some es, components := none }) ∧
    (∃ es cs, updateNowPlaying examplePlayer =
      some { content := none, embeds := some es, components := some cs }) :=
  ⟨(updateNowPlaying_confirmation_payload _).1 (by decide) (by decide),
   (updateNowPlaying_confirmation_payload examplePlayer).2.1 (by decide)
     (by decide)⟩

/-- Membership after a map delete. -/
theorem mem_eraseKey {g : Nat} {m : List (Nat × Player)} {kv : Nat × Player} :
    kv ∈ eraseKey g m ↔ kv ∈ m ∧ kv.1 ≠ g := by
  simp [eraseKey, List.mem_filter, bne_iff_ne]

/-- The emergency sweep empties every accumulator whose keys all occur in the
snapshot, whatever the per-session outcomes are. -/
theorem emergency_removes_all (oracles : Nat → EmergencyOracle) :
    ∀ (snapshot acc : List (Nat × Player)),
      (∀ kv ∈ acc, kv.1 ∈ snapshot.map Prod.fst) →
      emergencyCleanupAllPlayers oracles snapshot acc = [] := by
  intro snapshot
  induction snapshot with
  | nil =>
    intro acc h
    cases acc with
    | nil => rfl
    | cons kv rest => exact absurd (h kv (List.mem_cons_self kv rest)) (by simp)
  | cons gp rest ih =>
    intro acc h
    obtain ⟨g, p⟩ := gp
    have hstep : emergencyCleanupAllPlayers oracles ((g, p) :: rest) acc =
        emergencyCleanupAllPlayers oracles rest (eraseKey g acc) := by
      rcases hcl : emergencyCleanupPlayer p (oracles g) with ⟨p2, b⟩
      cases b <;> simp [emergencyCleanupAllPlayers, hcl]
    rw [hstep]
    apply ih
    intro kv hkv
    rcases mem_eraseKey.mp hkv with ⟨hin, hne⟩
    have hmem := h kv hin
    rw [List.map_cons, List.mem_cons] at hmem
    rcases hmem with h1 | h2
    · exact absurd h1 hne
    · exact h2

/-- The legacy sweep keeps exactly the entries whose key is never processed
without throwing. -/
theorem legacy_filter_char (oracles : Nat → LegacyOracle) :
    ∀ (snapshot acc : List (Nat × Player)),
      cleanupAllPlayers oracles snapshot acc =
        acc.filter fun kv =>
          !(snapshot.any fun gp =>
            !(legacyCleanupThrew gp.2 (oracles gp.1)) && kv.1 == gp.1) := by
  intro snapshot
  induction snapshot with
  | nil => intro acc; simp [cleanupAllPlayers]
  | cons gp rest ih =>
    intro acc
    obtain ⟨g, p⟩ := gp
    simp only [cleanupAllPlayers]
    cases hth : legacyCleanupThrew p (oracles g) with
    | true =>
      rw [if_pos rfl, ih]
      have hpred : (fun kv : Nat × Player =>
          !(((g, p) :: rest).any fun gp =>
            !(legacyCleanupThrew gp.2 (oracles gp.1)) && kv.1 == gp.1)) =
          (fun kv : Nat × Player =>
          !(rest.any fun gp =>
            !(legacyCleanupThrew gp.2 (oracles gp.1)) && kv.1 == gp.1)) := by
        funext kv
        simp [List.any_cons, hth]
      rw [hpred]
    | false =>
      rw [if_neg (by simp), ih, eraseKey, List.filter_filter]
      have hpred : (fun a : Nat × Player =>
          (!(rest.any fun gp =>
            !(legacyCleanupThrew gp.2 (oracles gp.1)) && a.1 == gp.1)) &&
            a.1 != g) =
          (fun kv : Nat × Player =>
          !(((g, p) :: rest).any fun gp =>
            !(legacyCleanupThrew gp.2 (oracles gp.1)) && kv.1 == gp.1)) := by
        funext kv
        by_cases hk : kv.1 = g <;>
          simp [List.any_cons, hth, hk, bne, Bool.and_comm]
      rw [hpred]

/-- Keys determine entries in a map with pairwise distinct keys. -/
theorem keys_nodup_inj {m : List (Nat × Player)}
    (h : (m.map Prod.fst).Nodup) {a b : Nat × Player}
    (ha : a ∈ m) (hb : b ∈ m) (hab : a.1 = b.1) : a = b :=
  List.inj_on_of_nodup_map h ha hb hab

/-- C2 counterexample: under the legacy _cleanupAllPlayers loop, a session
whose performStop rejects stays in the live map while the other session is
still processed and removed, contradicting total removal. -/
theorem cleanupAllPlayers_dangling_entry_counterexample :
    lookupKey 1 (cleanupAllPlayers
        (fun g => if g = 1 then { stopThrows := true } else { })
        [(1, examplePlayer), (2, examplePlayer)]
        [(1, examplePlayer), (2, examplePlayer)]) = some examplePlayer ∧
    lookupKey 2 (cleanupAllPlayers
        (fun g => if g = 1 then { stopThrows := true } else { })
        [(1, examplePlayer), (2, examplePlayer)]
        [(1, examplePlayer), (2, examplePlayer)]) = none := by decide

/-- C2 amended: the emergency cleanup path removes every session from the
live map, for every mix of session states and every pattern of per-session
exceptions, processing all sessions; the legacy _cleanupAllPlayers path keeps
exactly the sessions whose own cleanup threw (so a failure never blocks the
remaining sessions, but the failing session dangles). -/
theorem reconnect_cleanup_coverage :
    (∀ (oracles : Nat → EmergencyOracle) (m : List (Nat × Player)),
       emergencyCleanupAllPlayers oracles m m = []) ∧
    (∀ (oracles : Nat → LegacyOracle) (m : List (Nat × Player)),
       (m.map Prod.fst).Nodup →
       cleanupAllPlayers oracles m m =
         m.filter fun kv => legacyCleanupThrew kv.2 (oracles kv.1)) := by
  constructor
  · intro oracles m
    exact emergency_removes_all oracles m m
      (fun kv hkv => List.mem_map_of_mem Prod.fst hkv)
  · intro oracles m hnd
    rw [legacy_filter_char]
    apply List.filter_congr
    intro kv hkv
    by_cases hth : legacyCleanupThrew kv.2 (oracles kv.1) = true
    · rw [hth]
      simp only [Bool.not_eq_true']
      rw [List.any_eq_false]
      intro gp hgp
      by_cases hk : kv.1 = gp.1
      · have : kv = gp := keys_nodup_inj hnd hkv hgp hk
        subst this
        simp [hth]
      · simp [hk]
    · have hth' : legacyCleanupThrew kv.2 (oracles kv.1) = false :=
        Bool.not_eq_true _ |>.mp hth
      rw [hth']
      have hany : (m.any fun gp =>
          !(legacyCleanupThrew gp.2 (oracles gp.1)) && kv.1 == gp.1) = true := by
        rw [List.any_eq_true]
        exact ⟨kv, hkv, by simp [hth']⟩
      rw [hany]
      rfl

/-- Witness for C2 at a singleton map with benign outcomes. -/
theorem reconnect_cleanup_coverage_witness :
    emergencyCleanupAllPlayers (fun _ => { }) [(1, examplePlayer)]
      [(1, examplePlayer)] = [] ∧
    cleanupAllPlayers (fun _ => { }) [(1, examplePlayer)] [(1, examplePlayer)] =
      [(1, examplePlayer)].filter
        (fun kv => legacyCleanupThrew kv.2 ((fun _ => ({ } : LegacyOracle)) kv.1)) :=
  ⟨reconnect_cleanup_coverage.1 _ _,
   reconnect_cleanup_coverage.2 (fun _ => { }) [(1, examplePlayer)] (by decide)⟩

/-- C1 counterexample: the first call renders at time 1000; a second call at
3500 passes the gate but is diff-suppressed (no actual render), yet records
its timestamp; at 5000 the minimum interval has long elapsed since the last
actual render (1000) and the candidate payload differs from the cache, but
the call is throttled against the recorded 3500 and issues no transport
call - so gating is relative to the last gate pass, not the last render. -/
theorem sendOrUpdateNowPlayingUI_throttle_counterexample :
    editCount (sendOrUpdateNowPlayingUI
      { current := some 7, playing := true, position := 100 }
      false 1000 false 11).effects = 1 ∧
    editCount (sendOrUpdateNowPlayingUI
      (sendOrUpdateNowPlayingUI
        { current := some 7, playing := true, position := 100 }
        false 1000 false 11).player
      false 3500 false 12).effects = 0 ∧
    MIN_UI_UPDATE_INTERVAL ≤ 5000 - 1000 ∧
    ({ (sendOrUpdateNowPlayingUI
        (sendOrUpdateNowPlayingUI
          { current := some 7, playing := true, position := 100 }
          false 1000 false 11).player
        false 3500 false 12).player with position := 4000 } : Player).lastEmbedData ≠
      some (newDataOf
        { (sendOrUpdateNowPlayingUI
            (sendOrUpdateNowPlayingUI
              { current := some 7, playing := true, position := 100 }
              false 1000 false 11).player
            false 3500 false 12).player with position := 4000 }) ∧
    editCount (sendOrUpdateNowPlayingUI
      { (sendOrUpdateNowPlayingUI
          (sendOrUpdateNowPlayingUI
            { current := some 7, playing := true, position := 100 }
            false 1000 false 11).player
          false 3500 false 12).player with position := 4000 }
      false 5000 false 13).effects = 0 := by decide

/-- A fast refresh never hits the throttle gate. -/
theorem throttleHit_fast (p : Player) (now : Nat) :
    throttleHit p now true = false := by
  simp [throttleHit]

/-- C1 amended: one call issues at most one transport edit, and issues one
exactly when the throttle gate passes (at least the minimum interval since
the last gate-passing call, which records its timestamp whether or not it
edited, or a fast refresh), a live message exists or can be created, and the
refresh is fast or the candidate payload differs from the cached one. -/
theorem sendOrUpdateNowPlayingUI_edit_iff :
    ∀ (p : Player) (q : Bool) (now : Nat) (fast : Bool) (c : Nat),
      editCount (sendOrUpdateNowPlayingUI p q now fast c).effects ≤ 1 ∧
      (editCount (sendOrUpdateNowPlayingUI p q now fast c).effects = 1 ↔
        (throttleHit p now fast = false ∧
         ((freshMsg p now).isSome = true ∨ (renderEmbed p).isSome = true) ∧
         (fast = true ∨ p.lastEmbedData ≠ some (newDataOf p)))) := by
  intro p q now fast c
  by_cases hth : throttleHit p now fast = true
  · simp [sendOrUpdateNowPlayingUI, hth, editCount]
  · have hth' : throttleHit p now fast = false := by
      cases h : throttleHit p now fast
      · rfl
      · exact absurd h hth
    cases hf : fast with
    | true =>
      have hthf : throttleHit p now true = false := throttleHit_fast p now
      cases hm : p.nowPlayingMessage with
      | none =>
        cases hc : p.current with
        | none =>
          simp [sendOrUpdateNowPlayingUI, hthf, ensureNowPlayingMessage,
            ensureCreate, renderEmbed, freshMsg, hm, hc, editCount]
        | some tr =>
          cases hcl : p.nowPlayingCollector <;>
            cases hiv : p.nowPlayingInterval <;>
              simp [sendOrUpdateNowPlayingUI, hthf, ensureNowPlayingMessage,
                ensureCreate, renderEmbed, displayPosition, freshMsg, hm, hc,
                hcl, hiv, editCount, List.filter_append]
      | some m =>
        by_cases hst : now - m.createdTimestamp > 3600000
        · cases hc : p.current with
          | none =>
            simp [sendOrUpdateNowPlayingUI, hthf, ensureNowPlayingMessage,
              ensureCreate, renderEmbed, freshMsg, hm, hc, hst, editCount]
          | some tr =>
            cases hcl : p.nowPlayingCollector <;>
              cases hiv : p.nowPlayingInterval <;>
                simp [sendOrUpdateNowPlayingUI, hthf, ensureNowPlayingMessage,
                  ensureCreate, renderEmbed, displayPosition, freshMsg, hm, hc,
                  hcl, hiv, hst, editCount, List.filter_append]
        · cases hc : p.current <;> cases hiv : p.nowPlayingInterval <;>
            simp [sendOrUpdateNowPlayingUI, hthf, ensureNowPlayingMessage,
              ensureCreate, renderEmbed, displayPosition, freshMsg, newDataOf,
              hm, hc, hiv, hst, editCount, List.filter_append]
    | false =>
      have hthf : throttleHit p now false = false := hf ▸ hth'
      cases hm : p.nowPlayingMessage with
      | none =>
        cases hc : p.current with
        | none =>
          simp [sendOrUpdateNowPlayingUI, hthf, ensureNowPlayingMessage,
            ensureCreate, renderEmbed, freshMsg, newDataOf, hm, hc, editCount]
        | some tr =>
          cases hcl : p.nowPlayingCollector <;>
            cases hiv : p.nowPlayingInterval <;>
              by_cases hcache : p.lastEmbedData = some (newDataOf p) <;>
                simp only [newDataOf, renderEmbed, displayPosition, hc]
                  at hcache <;>
                simp [sendOrUpdateNowPlayingUI, hthf, ensureNowPlayingMessage,
                  ensureCreate, renderEmbed, displayPosition, freshMsg,
                  newDataOf, hm, hc, hcl, hiv, hcache, editCount,
                  List.filter_append]
      | some m =>
        by_cases hst : now - m.createdTimestamp > 3600000
        · cases hc : p.current with
          | none =>
            simp [sendOrUpdateNowPlayingUI, hthf, ensureNowPlayingMessage,
              ensureCreate, renderEmbed, freshMsg, newDataOf, hm, hc, hst,
              editCount]
          | some tr =>
            cases hcl : p.nowPlayingCollector <;>
              cases hiv : p.nowPlayingInterval <;>
                by_cases hcache : p.lastEmbedData = some (newDataOf p) <;>
                  simp only [newDataOf, renderEmbed, displayPosition, hc]
                    at hcache <;>
                  simp [sendOrUpdateNowPlayingUI, hthf, ensureNowPlayingMessage,
                    ensureCreate, renderEmbed, displayPosition, freshMsg,
                    newDataOf, hm, hc, hcl, hiv, hst, hcache, editCount,
                    List.filter_append]
        · cases hc : p.current with
          | none =>
            cases hiv : p.nowPlayingInterval <;>
              by_cases hcache : p.lastEmbedData = some (newDataOf p) <;>
                simp only [newDataOf, renderEmbed, displayPosition, hc]
                  at hcache <;>
                simp [sendOrUpdateNowPlayingUI, hthf, ensureNowPlayingMessage,
                  ensureCreate, renderEmbed, displayPosition, freshMsg,
                  newDataOf, hm, hc, hiv, hst, hcache, editCount,
                  List.filter_append]
          | some tr =>
            cases hiv : p.nowPlayingInterval <;>
              by_cases hcache : p.lastEmbedData = some (newDataOf p) <;>
                simp only [newDataOf, renderEmbed, displayPosition, hc]
                  at hcache <;>
                simp [sendOrUpdateNowPlayingUI, hthf, ensureNowPlayingMessage,
                  ensureCreate, renderEmbed, displayPosition, freshMsg,
                  newDataOf, hm, hc, hiv, hst, hcache, editCount,
                  List.filter_append]

/-- Membership after clearTimeout on a concrete handle. -/
theorem mem_removeTimer {i : Nat} {l : List (Nat × TimerKind)}
    {e : Nat × TimerKind} :
    e ∈ removeTimer i l ↔ e ∈ l ∧ e.1 ≠ i := by
  simp [removeTimer, List.mem_filter, bne_iff_ne]

/-- Clearing a stored timer reference only drops entries. -/
theorem clearStored_sublist (o : Option Nat) (l : List (Nat × TimerKind)) :
    List.Sublist (clearStored o l) l := by
  cases o with
  | none => exact List.Sublist.refl l
  | some i => exact List.filter_sublist l

/-- The runtime invariant survives dropping live entries and any player
change that preserves the stored interval reference. -/
theorem rtInv_of_sub (s : RtState) (h : rtInv s) (pl : Player) (n : Nat)
    (hn : s.nextId ≤ n)
    (hpl : pl.nowPlayingInterval = s.player.nowPlayingInterval)
    (l' : List (Nat × TimerKind)) (hsub : List.Sublist l' s.live) :
    rtInv { player := pl, nextId := n, live := l' } := by
  obtain ⟨h1, h2, h3⟩ := h
  refine ⟨?_, ?_, ?_⟩
  · intro e he
    exact Nat.lt_of_lt_of_le (h1 e (hsub.subset he)) hn
  · exact h2.sublist (hsub.map Prod.fst)
  · intro e he hk
    rw [hpl]
    exact h3 e (hsub.subset he) hk

/-- The runtime invariant survives clearing the stored interval timer, with
any nextId growth and any resulting player: no live refresh timer remains. -/
theorem rtInv_clearIntervalLive (s : RtState) (h : rtInv s) (pl : Player)
    (n : Nat) (hn : s.nextId ≤ n) :
    rtInv { player := pl, nextId := n,
            live := clearStored s.player.nowPlayingInterval s.live } := by
  obtain ⟨h1, h2, h3⟩ := h
  refine ⟨?_, ?_, ?_⟩
  · intro e he
    exact Nat.lt_of_lt_of_le
      (h1 e ((clearStored_sublist _ _).subset he)) hn
  · exact h2.sublist ((clearStored_sublist _ _).map Prod.fst)
  · intro e he hk
    have hmem : e ∈ s.live := (clearStored_sublist _ _).subset he
    have hstored := h3 e hmem hk
    rw [hstored] at he
    exact ((mem_removeTimer.mp he).2 rfl).elim

/-- The runtime invariant survives allocating a fresh timer: a non-refresh
timer must leave the interval reference alone, a refresh timer may only be
created while no interval is stored and must be the new reference. -/
theorem rtInv_appendTimer (s : RtState) (pl : Player) (k : TimerKind)
    (h : rtInv s)
    (hint : (k ≠ TimerKind.refreshInterval ∧
              pl.nowPlayingInterval = s.player.nowPlayingInterval) ∨
            (k = TimerKind.refreshInterval ∧
              s.player.nowPlayingInterval = none ∧
              pl.nowPlayingInterval = some s.nextId)) :
    rtInv { player := pl, nextId := s.nextId + 1,
            live := s.live ++ [(s.nextId, k)] } := by
  obtain ⟨h1, h2, h3⟩ := h
  refine ⟨?_, ?_, ?_⟩
  · intro e he
    rcases List.mem_append.mp he with hol | hnw
    · exact Nat.lt_succ_of_lt (h1 e hol)
    · have he' : e = (s.nextId, k) := by simpa using hnw
      rw [he']
      exact Nat.lt_succ_self _
  · rw [List.map_append]
    refine List.nodup_append.mpr ⟨h2, List.nodup_singleton _, ?_⟩
    intro a ha hb
    have hb' : a = s.nextId := by simpa using hb
    rcases List.mem_map.mp ha with ⟨e, hel, hfst⟩
    have := h1 e hel
    omega
  · intro e he hk2
    rcases List.mem_append.mp he with hol | hnw
    · have hold := h3 e hol hk2
      rcases hint with ⟨_, heq⟩ | ⟨_, hnone, _⟩
      · rw [heq]
        exact hold
      · rw [hnone] at hold
        exact absurd hold (by simp)
    · have he' : e = (s.nextId, k) := by simpa using hnw
      rcases hint with ⟨hne, _⟩ | ⟨_, _, hsome⟩
      · rw [he'] at hk2
        exact absurd hk2 hne
      · rw [he']
        exact hsome

/-- Every runtime step preserves the invariant. -/
theorem rtInv_step (cfg : Option Nat) (s : RtState) (e : UIEvent)
    (h : rtInv s) : rtInv (stepTimer cfg s e) := by
  cases e with
  | pressStop =>
    exact rtInv_appendTimer s _ _ h (Or.inl ⟨by decide, rfl⟩)
  | pressConfirmStop =>
    exact rtInv_clearIntervalLive _
      (rtInv_of_sub s h s.player s.nextId (Nat.le_refl _) rfl _
        (clearStored_sublist _ _)) _ _ (Nat.le_refl _)
  | pressCancelStop =>
    exact rtInv_of_sub s h s.player s.nextId (Nat.le_refl _) rfl _
      (clearStored_sublist _ _)
  | pressPlayPause =>
    by_cases hp : s.player.paused = true
    · simp only [stepTimer, hp, if_true]
      exact rtInv_of_sub s h _ s.nextId (Nat.le_refl _) rfl _
        (clearStored_sublist _ _)
    · have hp' : s.player.paused = false := by
        cases hq : s.player.paused
        · rfl
        · exact absurd hq hp
      simp only [stepTimer, hp', Bool.false_eq_true, if_false]
      exact rtInv_appendTimer s _ _ h (Or.inl ⟨by decide, rfl⟩)
  | commandStop =>
    exact rtInv_clearIntervalLive s h _ _ (Nat.le_refl _)
  | uiRefreshTick =>
    cases hiv : s.player.nowPlayingInterval with
    | some i =>
      simp only [stepTimer, hiv]
      exact h
    | none =>
      simp only [stepTimer, hiv]
      exact rtInv_appendTimer s _ _ h (Or.inr ⟨rfl, hiv, rfl⟩)
  | intervalFire i =>
    by_cases hc : s.live.contains (i, TimerKind.refreshInterval) = true
    · simp only [stepTimer, hc, if_true]
      by_cases hpp : (s.player.playing || s.player.paused) = true
      · simp only [hpp, if_true]
        exact h
      · have hpp' : (s.player.playing || s.player.paused) = false := by
          cases hq : (s.player.playing || s.player.paused)
          · rfl
          · exact absurd hq hpp
        simp only [hpp', Bool.false_eq_true, if_false]
        exact rtInv_clearIntervalLive s h _ _ (Nat.le_refl _)
    · have hc' : s.live.contains (i, TimerKind.refreshInterval) = false := by
        cases hq : s.live.contains (i, TimerKind.refreshInterval)
        · rfl
        · exact absurd hq hc
      simp only [stepTimer, hc', Bool.false_eq_true, if_false]
      exact h
  | pauseTimerFire i =>
    by_cases hc : s.live.contains (i, TimerKind.pauseAutoStop) = true
    · simp only [stepTimer, hc, if_true]
      have h1 : rtInv { s with live := removeTimer i s.live } :=
        rtInv_of_sub s h s.player s.nextId (Nat.le_refl _) rfl _
          (List.filter_sublist _)
      by_cases hp : s.player.paused = true
      · simp only [hp, if_true]
        exact rtInv_clearIntervalLive _ h1 _ _ (Nat.le_refl _)
      · have hp' : s.player.paused = false := by
          cases hq : s.player.paused
          · rfl
          · exact absurd hq hp
        simp only [hp', Bool.false_eq_true, if_false]
        exact h1
    · have hc' : s.live.contains (i, TimerKind.pauseAutoStop) = false := by
        cases hq : s.live.contains (i, TimerKind.pauseAutoStop)
        · rfl
        · exact absurd hq hc
      simp only [stepTimer, hc', Bool.false_eq_true, if_false]
      exact h
  | confirmTimerFire i =>
    by_cases hc : s.live.contains (i, TimerKind.stopConfirmation) = true
    · simp only [stepTimer, hc, if_true]
      exact rtInv_of_sub s h s.player s.nextId (Nat.le_refl _) rfl _
        (List.filter_sublist _)
    · have hc' : s.live.contains (i, TimerKind.stopConfirmation) = false := by
        cases hq : s.live.contains (i, TimerKind.stopConfirmation)
        · rfl
        · exact absurd hq hc
      simp only [stepTimer, hc', Bool.false_eq_true, if_false]
      exact h

/-- A session that never armed a timer satisfies the invariant. -/
theorem rtInv_initialRt (p : Player) : rtInv (initialRt p) :=
  ⟨fun e he => absurd he (List.not_mem_nil e),
   List.nodup_nil,
   fun e he _ => absurd he (List.not_mem_nil e)⟩

/-- Under the invariant at most one refresh interval is live. -/
theorem liveOfKind_refresh_le_one (s : RtState) (h : rtInv s) :
    (liveOfKind TimerKind.refreshInterval s).length ≤ 1 := by
  obtain ⟨h1, h2, h3⟩ := h
  rcases hl : liveOfKind TimerKind.refreshInterval s with _ | ⟨x, _ | ⟨y, rest⟩⟩
  · simp
  · simp
  · exfalso
    have hx : x ∈ liveOfKind TimerKind.refreshInterval s := by
      rw [hl]
      exact List.mem_cons_self _ _
    have hy : y ∈ liveOfKind TimerKind.refreshInterval s := by
      rw [hl]
      exact List.mem_cons_of_mem _ (List.mem_cons_self _ _)
    have hxm := List.mem_filter.mp hx
    have hym := List.mem_filter.mp hy
    have hxr : x.2 = TimerKind.refreshInterval := by simpa using hxm.2
    have hyr : y.2 = TimerKind.refreshInterval := by simpa using hym.2
    have hsx := h3 x hxm.1 hxr
    have hsy := h3 y hym.1 hyr
    have hxy : x.1 = y.1 := by
      rw [hsx] at hsy
      exact (Option.some.injEq _ _).mp hsy
    have hsub : List.Sublist (liveOfKind TimerKind.refreshInterval s) s.live :=
      List.filter_sublist _
    have hnd : ((liveOfKind TimerKind.refreshInterval s).map Prod.fst).Nodup :=
      h2.sublist (hsub.map Prod.fst)
    rw [hl] at hnd
    rcases List.nodup_cons.mp hnd with ⟨hx1, _⟩
    exact hx1 (by simp [hxy])

/-- C7 counterexample: two stop presses dispatched in a row are reachable and
leave two live stop-confirmation timers, because the second press merely
overwrites the stored reference without a clearTimeout. -/
theorem stopConfirmation_double_timer_counterexample :
    ReachedRt (some 50) examplePlayer
      (runEvents (some 50) (initialRt examplePlayer)
        [UIEvent.pressStop, UIEvent.pressStop]) ∧
    (liveOfKind TimerKind.stopConfirmation
      (runEvents (some 50) (initialRt examplePlayer)
        [UIEvent.pressStop, UIEvent.pressStop])).length = 2 :=
  ⟨ReachedRt.step _ UIEvent.pressStop
     (ReachedRt.step _ UIEvent.pressStop ReachedRt.init),
   by decide⟩

/-- C7 amended: in every reachable runtime state at most one periodic-refresh
interval is live (its creation is guarded and every clear nulls the
reference), but the stop-confirmation and pause auto-stop timers are
installed by plain assignment - the press leaves every previously live timer
live and allocates a new one. -/
theorem timer_uniqueness_amended :
    (∀ (cfg : Option Nat) (p0 : Player) (s : RtState),
       ReachedRt cfg p0 s →
       (liveOfKind TimerKind.refreshInterval s).length ≤ 1) ∧
    (∀ (cfg : Option Nat) (s : RtState),
       (stepTimer cfg s UIEvent.pressStop).live =
         s.live ++ [(s.nextId, TimerKind.stopConfirmation)] ∧
       (stepTimer cfg s UIEvent.pressStop).player.stopConfirmationTimeout =
         some s.nextId) ∧
    (∀ (cfg : Option Nat) (s : RtState), s.player.paused = false →
       (stepTimer cfg s UIEvent.pressPlayPause).live =
         s.live ++ [(s.nextId, TimerKind.pauseAutoStop)]) := by
  refine ⟨?_, fun cfg s => ⟨rfl, rfl⟩, ?_⟩
  · intro cfg p0 s hr
    apply liveOfKind_refresh_le_one
    induction hr with
    | init => exact rtInv_initialRt p0
    | step s2 e2 hr2 ih => exact rtInv_step cfg s2 e2 ih
  · intro cfg s hp
    simp [stepTimer, hp]

/-- Witness for C7 at the initial state of the example session. -/
theorem timer_uniqueness_amended_witness :
    (liveOfKind TimerKind.refreshInterval (initialRt examplePlayer)).length ≤ 1 ∧
    (stepTimer none (initialRt examplePlayer) UIEvent.pressPlayPause).live =
      (initialRt examplePlayer).live ++
        [((initialRt examplePlayer).nextId, TimerKind.pauseAutoStop)] :=
  ⟨timer_uniqueness_amended.1 none examplePlayer _ ReachedRt.init,
   timer_uniqueness_amended.2.2 none (initialRt examplePlayer) (by decide)⟩
